import Mathlib

/-!
Shallow embedding of the automaton-to-table compiler `dfa2map` from
`src/xdp_prog_user.c` (eBPF-IDS).

The C function receives a pointer to the start state of a DFA produced by the
external re2dfa library and an open bpf map file descriptor.  It

1. creates a generic list, pushes the start-state pointer into it, and calls
   the external `DFA_traverse`, which appends the remaining reachable states;
2. walks the list assigning `state_id = i` to the i-th listed state
   (this writes into the DFA state objects themselves);
3. walks the list again, and for every transition of every listed state builds
   `map_key = { state = state_id (u16); unit = trans_char (u8); padding = 0 }`
   and `map_value = { final_state = is_acceptable (u16); state = target
   state_id (u16) }` and calls `bpf_map_update_elem`; a failed update only
   prints a warning line and the loop continues;
4. returns 0 unconditionally.

Pointers are modelled as indices into a list of states; the bpf map handle is
modelled by an outcome oracle `fail : Nat -> Bool` giving the result of the
k-th `bpf_map_update_elem` call.  Machine integers are `Nat` with explicit
`% 2 ^ w` where the C code narrows (`int` state ids into `__u16` fields,
`char` into `__u8`).
-/

/-- A labeled edge of the DFA graph: `trans_char` and target pointer `to`
(modelled as an index into the graph).  Mirrors `(*state)->trans[i]` usage in
`dfa2map`. -/
structure DFA_transition where
  trans_char : Nat
  «to» : Nat
  deriving DecidableEq

/-- A DFA state as used by `dfa2map`: the `state_id` field written by the
encoding loop, the accepting flag `is_acceptable`, and the outgoing transition
array. -/
structure DFA_state where
  state_id : Nat
  is_acceptable : Bool
  trans : List DFA_transition
  deriving DecidableEq

/-- The automaton graph: states addressed by index (modelling pointers). -/
abbrev DFAGraph := List DFA_state

/-- `struct ids_inspect_map_key`: `ids_inspect_state state` (`__u16`),
`ids_inspect_unit unit` (`__u8`), `__u8 padding`. -/
structure ids_inspect_map_key where
  state : Nat
  unit : Nat
  padding : Nat
  deriving DecidableEq

/-- `struct ids_inspect_map_value`: `__u16 final_state` first, then
`ids_inspect_state state` (`__u16`). -/
structure ids_inspect_map_value where
  final_state : Nat
  state : Nat
  deriving DecidableEq

/-- Used for the (unreachable in well-formed runs) dereference of an
out-of-range pointer. -/
def defaultState : DFA_state := ⟨0, false, []⟩

/-- Overwrite the state at index `p` (the C loop mutates the pointed-to state
object in place). -/
def modifyIdx (f : DFA_state → DFA_state) : Nat → DFAGraph → DFAGraph
  | _, [] => []
  | 0, s :: g => f s :: g
  | n + 1, s :: g => s :: modifyIdx f n g

/-- The encoding loop of `dfa2map` (lines 126-128): walk the enumerated state
list, writing `state_id = i_state` into each listed state, `i_state` counting
up from `i`. -/
def assignIdsFrom : DFAGraph → Nat → List Nat → DFAGraph
  | g, _, [] => g
  | g, i, p :: rest =>
      assignIdsFrom (modifyIdx (fun s => { s with state_id := i }) p g) (i + 1) rest

/-- The key/value pairs built by the inner loop of `dfa2map` (lines 132-150)
for one enumerated state `p`, in transition order.  `int` state ids are
narrowed into the `__u16` fields and `trans_char` into the `__u8` unit
field. -/
def stateWrites (g : DFAGraph) (p : Nat) : List (ids_inspect_map_key × ids_inspect_map_value) :=
  (((g.get? p).getD defaultState).trans).map (fun t =>
    ({ state := ((g.get? p).getD defaultState).state_id % 65536,
       unit := t.trans_char % 256, padding := 0 },
     { final_state := if ((g.get? t.«to»).getD defaultState).is_acceptable then 1 else 0,
       state := ((g.get? t.«to»).getD defaultState).state_id % 65536 }))

/-- Outcome of one compilation pass: the writes issued so far (in order) and
the number of WARN lines printed for failed `bpf_map_update_elem` calls. -/
structure CompileState where
  writes : List (ids_inspect_map_key × ids_inspect_map_value)
  warnings : Nat
  deriving DecidableEq

/-- One `bpf_map_update_elem` call (lines 144-148): the write is attempted
unconditionally; if the store reports failure a warning is printed and the
loop continues. -/
def putOne (fail : Nat → Bool) (st : CompileState)
    (kv : ids_inspect_map_key × ids_inspect_map_value) : CompileState :=
  if fail st.writes.length then
    { writes := st.writes ++ [kv], warnings := st.warnings + 1 }
  else
    { writes := st.writes ++ [kv], warnings := st.warnings }

/-- Everything observable about one `dfa2map` run: the DFA graph after the run
(the `state_id` fields have been written), the attempted store writes in
order, the number of warning lines, and the `int` return value handed back to
`main`. -/
structure RunResult where
  graph : DFAGraph
  writes : List (ids_inspect_map_key × ids_inspect_map_value)
  warnings : Nat
  ret : Int
  deriving DecidableEq

/-- `dfa2map` (lines 110-153).  `dfa` is the start-state pointer pushed into
the freshly created list (line 120); `traversed` is the output of the external
`DFA_traverse` (line 121).  Modelled from the spec: `DFA_traverse` is part of
the re2dfa library and not in `src/`; per the spec's State Enumerator contract
it appends the remaining reachable states to the list, so the enumerated list
is `dfa :: traversed` and its further properties (duplicate-freedom,
closure under transitions) are taken as hypotheses (`goodEnum`) where a claim
needs them. -/
def dfa2map (dfa : Nat) (g : DFAGraph) (traversed : List Nat) (fail : Nat → Bool) : RunResult :=
  let state_list : List Nat := dfa :: traversed
  let g' := assignIdsFrom g 0 state_list
  let final := state_list.foldl
    (fun st p => (stateWrites g' p).foldl (putOne fail) st) ⟨[], 0⟩
  { graph := g', writes := final.writes, warnings := final.warnings, ret := 0 }

/-- The outgoing transition list of the state a pointer refers to. -/
def transOf (g : DFAGraph) (p : Nat) : List DFA_transition :=
  ((g.get? p).map DFA_state.trans).getD []

/-- Modelled from the spec: the State Enumerator contract (spec section 4.1)
for the list produced by lines 118-121 — duplicate-free, every listed pointer
valid, and closed under transitions (every transition target of a listed state
is itself listed); transition labels are single bytes. -/
def goodEnum (g : DFAGraph) (sl : List Nat) : Prop :=
  sl.Nodup ∧ (∀ p ∈ sl, p < g.length) ∧
    ∀ p ∈ sl, ∀ t ∈ transOf g p, t.«to» ∈ sl ∧ t.trans_char < 256

instance goodEnumDec (g : DFAGraph) (sl : List Nat) : Decidable (goodEnum g sl) := by
  unfold goodEnum
  infer_instance

/-- The table the spec expects: one row per enumerated state and transition,
key `(id(s), symbol)` and value `(target accepting, id(target))`, ids being
positions in the enumeration order. -/
def rowOf (g : DFAGraph) (sl : List Nat) (p : Nat) :
    List (ids_inspect_map_key × ids_inspect_map_value) :=
  (transOf g p).map (fun t =>
    ({ state := sl.indexOf p, unit := t.trans_char, padding := 0 },
     { final_state := if ((g.get? t.«to»).getD defaultState).is_acceptable then 1 else 0,
       state := sl.indexOf t.«to» }))

/-- The full expected table in enumeration order. -/
def specTable (g : DFAGraph) (sl : List Nat) :
    List (ids_inspect_map_key × ids_inspect_map_value) :=
  sl.flatMap (rowOf g sl)

/-- Little-endian bytes of a `__u16` field. -/
def u16Bytes (x : Nat) : List Nat := [x % 256, x / 256 % 256]

/-- Byte image of `struct ids_inspect_map_value` as laid out in the source:
`__u16 final_state` at offset 0, then `__u16 state` at offset 2. -/
def valueBytes (v : ids_inspect_map_value) : List Nat :=
  u16Bytes v.final_state ++ u16Bytes v.state

/-- Modelled from the spec: the value layout as the spec words it in section 6
— `target_state_id` first, then `target_is_accepting`. -/
def specValueLayoutBytes (targetId targetAcc : Nat) : List Nat :=
  u16Bytes targetId ++ u16Bytes targetAcc

/-- Three-state scenario of the spec: state A, with transitions on x (120) to
B and y (121) to C. -/
def stateA : DFA_state := ⟨0, false, [⟨120, 1⟩, ⟨121, 2⟩]⟩

/-- Scenario state B: accepting, one transition on z (122) back to A. -/
def stateB : DFA_state := ⟨0, true, [⟨122, 0⟩]⟩

/-- Scenario state C: non-accepting, no outgoing transitions. -/
def stateC : DFA_state := ⟨0, false, []⟩

/-- The scenario graph with pointers A = 0, B = 1, C = 2. -/
def abcGraph : DFAGraph := [stateA, stateB, stateC]

/-- A store that accepts every write. -/
def noFail : Nat → Bool := fun _ => false

/-- A store that rejects exactly the second write (index 1). -/
def failSecond : Nat → Bool := fun k => k == 1

/-! ### Lemmas about the in-place update and the ID-assignment loop -/

lemma modifyIdx_get?_self (f : DFA_state → DFA_state) :
    ∀ (p : Nat) (g : DFAGraph), (modifyIdx f p g).get? p = (g.get? p).map f := by
  intro p g
  induction g generalizing p with
  | nil => cases p <;> rfl
  | cons s g ih =>
    cases p with
    | zero => rfl
    | succ n => simpa [modifyIdx] using ih n

lemma modifyIdx_get?_other (f : DFA_state → DFA_state) :
    ∀ (p q : Nat) (g : DFAGraph), q ≠ p → (modifyIdx f p g).get? q = g.get? q := by
  intro p q g
  induction g generalizing p q with
  | nil => intro _; cases p <;> rfl
  | cons s g ih =>
    intro hne
    cases p with
    | zero =>
      cases q with
      | zero => exact absurd rfl hne
      | succ m => rfl
    | succ n =>
      cases q with
      | zero => rfl
      | succ m => simpa [modifyIdx] using ih n m (fun h => hne (by omega))

lemma assignIdsFrom_get?_of_not_mem :
    ∀ (sl : List Nat) (g : DFAGraph) (i p : Nat), p ∉ sl →
      (assignIdsFrom g i sl).get? p = g.get? p := by
  intro sl
  induction sl with
  | nil => intro g i p _; rfl
  | cons q rest ih =>
    intro g i p hp
    have hq : p ≠ q := fun h => hp (by simp [h])
    have hrest : p ∉ rest := fun h => hp (by simp [h])
    rw [assignIdsFrom, ih _ _ _ hrest, modifyIdx_get?_other _ _ _ _ hq]

lemma assignIdsFrom_get?_of_get? :
    ∀ (sl : List Nat) (g : DFAGraph) (i j p : Nat), sl.Nodup → sl.get? j = some p →
      (assignIdsFrom g i sl).get? p = (g.get? p).map (fun s => { s with state_id := i + j }) := by
  intro sl
  induction sl with
  | nil => intro g i j p _ hj; cases j <;> simp at hj
  | cons q rest ih =>
    intro g i j p hnd hj
    obtain ⟨hq, hrest⟩ := List.nodup_cons.mp hnd
    cases j with
    | zero =>
      have hpq : q = p := by simpa using hj
      subst hpq
      rw [assignIdsFrom, assignIdsFrom_get?_of_not_mem rest _ _ _ hq,
        modifyIdx_get?_self]
      simp
    | succ j =>
      have hj' : rest.get? j = some p := by simpa using hj
      have hpq : p ≠ q := fun h => hq (h ▸ List.get?_mem hj')
      rw [assignIdsFrom, ih _ _ _ _ hrest hj',
        modifyIdx_get?_other _ _ _ _ hpq]
      have : i + 1 + j = i + (j + 1) := by omega
      rw [this]

lemma assignIdsFrom_get?_shape :
    ∀ (sl : List Nat) (g : DFAGraph) (i p : Nat),
      ((assignIdsFrom g i sl).get? p).map (fun s => (s.is_acceptable, s.trans))
        = (g.get? p).map (fun s => (s.is_acceptable, s.trans)) := by
  intro sl
  induction sl with
  | nil => intro g i p; rfl
  | cons q rest ih =>
    intro g i p
    rw [assignIdsFrom, ih]
    by_cases hpq : p = q
    · subst hpq
      rw [modifyIdx_get?_self]
      cases g.get? p <;> rfl
    · rw [modifyIdx_get?_other _ _ _ _ hpq]

/-! ### Lemmas about the write loop -/

lemma foldl_putOne (fail : Nat → Bool) :
    ∀ (kvs : List (ids_inspect_map_key × ids_inspect_map_value)) (st : CompileState),
      kvs.foldl (putOne fail) st =
        ⟨st.writes ++ kvs,
         st.warnings + ((List.range' st.writes.length kvs.length).filter (fun k => fail k)).length⟩ := by
  intro kvs
  induction kvs with
  | nil => intro st; simp
  | cons kv rest ih =>
    intro st
    rw [List.foldl_cons, ih]
    unfold putOne
    by_cases h : fail st.writes.length
    · simp [h, List.range'_succ, List.filter_cons]
      omega
    · simp [h, List.range'_succ, List.filter_cons]

lemma foldl_stateWrites (g' : DFAGraph) (fail : Nat → Bool) :
    ∀ (sl : List Nat) (st : CompileState),
      sl.foldl (fun st p => (stateWrites g' p).foldl (putOne fail) st) st
        = (sl.flatMap (stateWrites g')).foldl (putOne fail) st := by
  intro sl
  induction sl with
  | nil => intro st; rfl
  | cons p rest ih =>
    intro st
    rw [List.foldl_cons, ih, List.flatMap_cons, List.foldl_append]

lemma dfa2map_run (dfa : Nat) (g : DFAGraph) (traversed : List Nat) (fail : Nat → Bool) :
    dfa2map dfa g traversed fail =
      ⟨assignIdsFrom g 0 (dfa :: traversed),
       (dfa :: traversed).flatMap (stateWrites (assignIdsFrom g 0 (dfa :: traversed))),
       ((List.range ((dfa :: traversed).flatMap
           (stateWrites (assignIdsFrom g 0 (dfa :: traversed)))).length).filter
         (fun k => fail k)).length,
       0⟩ := by
  simp only [dfa2map]
  rw [foldl_stateWrites, foldl_putOne]
  simp [List.range_eq_range']

lemma dfa2map_graph (dfa : Nat) (g : DFAGraph) (traversed : List Nat) (fail : Nat → Bool) :
    (dfa2map dfa g traversed fail).graph = assignIdsFrom g 0 (dfa :: traversed) := by
  rw [dfa2map_run]

lemma dfa2map_writes (dfa : Nat) (g : DFAGraph) (traversed : List Nat) (fail : Nat → Bool) :
    (dfa2map dfa g traversed fail).writes
      = (dfa :: traversed).flatMap (stateWrites (assignIdsFrom g 0 (dfa :: traversed))) := by
  rw [dfa2map_run]

lemma dfa2map_warnings (dfa : Nat) (g : DFAGraph) (traversed : List Nat) (fail : Nat → Bool) :
    (dfa2map dfa g traversed fail).warnings
      = ((List.range (dfa2map dfa g traversed fail).writes.length).filter
          (fun k => fail k)).length := by
  rw [dfa2map_run]

lemma dfa2map_ret (dfa : Nat) (g : DFAGraph) (traversed : List Nat) (fail : Nat → Bool) :
    (dfa2map dfa g traversed fail).ret = 0 := by
  rw [dfa2map_run]

/-! ### Characterization of the written table -/

lemma assign_getD_shape (g : DFAGraph) (sl : List Nat) (i p : Nat) :
    (((assignIdsFrom g i sl).get? p).getD defaultState).is_acceptable
        = ((g.get? p).getD defaultState).is_acceptable ∧
      (((assignIdsFrom g i sl).get? p).getD defaultState).trans
        = ((g.get? p).getD defaultState).trans := by
  have hshape := assignIdsFrom_get?_shape sl g i p
  cases hg' : (assignIdsFrom g i sl).get? p with
  | none =>
    rw [hg'] at hshape
    cases hg : g.get? p with
    | none => simp
    | some s => rw [hg] at hshape; simp at hshape
  | some s' =>
    rw [hg'] at hshape
    cases hg : g.get? p with
    | none => rw [hg] at hshape; simp at hshape
    | some s =>
      rw [hg] at hshape
      simp only [Option.map_some', Option.some.injEq, Prod.mk.injEq] at hshape
      simp [hshape.1, hshape.2]

lemma stateWrites_assign_length (g : DFAGraph) (sl : List Nat) (i p : Nat) :
    (stateWrites (assignIdsFrom g i sl) p).length = (transOf g p).length := by
  unfold stateWrites transOf
  rw [(assign_getD_shape g sl i p).2]
  cases g.get? p <;> simp [defaultState]

lemma flatMap_congr_local {α β : Type} (l : List α) (f g : α → List β)
    (h : ∀ a ∈ l, f a = g a) : l.flatMap f = l.flatMap g := by
  induction l with
  | nil => rfl
  | cons a t ih =>
    rw [List.flatMap_cons, List.flatMap_cons, h a (by simp),
      ih (fun x hx => h x (by simp [hx]))]

lemma stateWrites_eq_rowOf (g : DFAGraph) (sl : List Nat)
    (h : goodEnum g sl) (hlen : sl.length ≤ 65536) {p : Nat} (hp : p ∈ sl) :
    stateWrites (assignIdsFrom g 0 sl) p = rowOf g sl p := by
  obtain ⟨hnd, hlt, htr⟩ := h
  have hps : g.get? p = some (g.get ⟨p, hlt p hp⟩) := List.get?_eq_get (hlt p hp)
  have hg'p : (assignIdsFrom g 0 sl).get? p
      = (g.get? p).map (fun s => { s with state_id := sl.indexOf p }) := by
    simpa using assignIdsFrom_get?_of_get? sl g 0 (sl.indexOf p) p hnd (List.indexOf_get? hp)
  unfold stateWrites rowOf transOf
  rw [hg'p, hps]
  simp only [Option.map_some', Option.getD_some]
  apply List.map_congr_left
  intro t ht
  have htt : t ∈ transOf g p := by
    unfold transOf
    rw [hps]
    simpa using ht
  obtain ⟨hto, hchar⟩ := htr p hp t htt
  have hqs : g[t.«to»]? = some (g.get ⟨t.«to», hlt _ hto⟩) := by
    rw [← List.get?_eq_getElem?]
    exact List.get?_eq_get (hlt _ hto)
  have hg'q : (assignIdsFrom g 0 sl)[t.«to»]?
      = (g[t.«to»]?).map (fun s => { s with state_id := sl.indexOf t.«to» }) := by
    rw [← List.get?_eq_getElem?, ← List.get?_eq_getElem?]
    simpa using assignIdsFrom_get?_of_get? sl g 0 (sl.indexOf t.«to») t.«to» hnd
      (List.indexOf_get? hto)
  have h1 : sl.indexOf p % 65536 = sl.indexOf p :=
    Nat.mod_eq_of_lt (lt_of_lt_of_le (List.indexOf_lt_length.mpr hp) hlen)
  have h2 : t.trans_char % 256 = t.trans_char := Nat.mod_eq_of_lt hchar
  have h3 : sl.indexOf t.«to» % 65536 = sl.indexOf t.«to» :=
    Nat.mod_eq_of_lt (lt_of_lt_of_le (List.indexOf_lt_length.mpr hto) hlen)
  simp [hg'q, hqs, h1, h2, h3]

lemma dfa2map_writes_spec (dfa : Nat) (g : DFAGraph) (traversed : List Nat) (fail : Nat → Bool)
    (h : goodEnum g (dfa :: traversed)) (hlen : (dfa :: traversed).length ≤ 65536) :
    (dfa2map dfa g traversed fail).writes = specTable g (dfa :: traversed) := by
  rw [dfa2map_writes]
  unfold specTable
  exact flatMap_congr_local _ _ _ (fun p hp => stateWrites_eq_rowOf g _ h hlen hp)

/-! ### Claims -/

/-- C1: for every enumerated state and every outgoing transition the compiler
issues exactly one store write, keyed by the source id and the symbol, valued
by the target id and the target accepting flag (ids being enumeration
positions): the attempted write sequence is exactly the expected table. -/
theorem C1_one_write_per_transition (dfa : Nat) (g : DFAGraph) (traversed : List Nat)
    (fail : Nat → Bool) (h : goodEnum g (dfa :: traversed))
    (hlen : (dfa :: traversed).length ≤ 65536) :
    (dfa2map dfa g traversed fail).writes = specTable g (dfa :: traversed) :=
  dfa2map_writes_spec dfa g traversed fail h hlen

/-- C1 witness: the three-state scenario A, B accepting, C with transitions
A-x-B, A-y-C, B-z-A produces exactly the table
(0,x)->(1,true), (0,y)->(2,false), (1,z)->(0,false). -/
theorem C1_witness :
    (goodEnum abcGraph [0, 1, 2] ∧ ([0, 1, 2] : List Nat).length ≤ 65536) ∧
    (dfa2map 0 abcGraph [1, 2] noFail).writes =
      [(⟨0, 120, 0⟩, ⟨1, 1⟩), (⟨0, 121, 0⟩, ⟨0, 2⟩), (⟨1, 122, 0⟩, ⟨0, 0⟩)] :=
  ⟨⟨by decide, by decide⟩,
    (C1_one_write_per_transition 0 abcGraph [1, 2] noFail (by decide) (by decide)).trans
      (by decide)⟩

/-- C2: the ids assigned to the enumerated states are exactly 0..N-1 in
enumeration order (a bijection onto the positions), and the writes are encoded
against the fully assigned graph (all assignments complete before any
transition is encoded). -/
theorem C2_ids_bijection (dfa : Nat) (g : DFAGraph) (traversed : List Nat) (fail : Nat → Bool)
    (h : goodEnum g (dfa :: traversed)) :
    ((dfa :: traversed).map
        (fun p => (((dfa2map dfa g traversed fail).graph.get? p).map DFA_state.state_id).getD 0))
      = List.range (dfa :: traversed).length ∧
    (dfa2map dfa g traversed fail).writes
      = (dfa :: traversed).flatMap (stateWrites (dfa2map dfa g traversed fail).graph) := by
  obtain ⟨hnd, hlt, -⟩ := h
  constructor
  · rw [dfa2map_graph]
    apply List.ext_get?
    intro j
    rw [List.get?_map]
    by_cases hj : j < (dfa :: traversed).length
    · have hp : (dfa :: traversed).get? j = some ((dfa :: traversed).get ⟨j, hj⟩) :=
        List.get?_eq_get hj
      have hmem : (dfa :: traversed).get ⟨j, hj⟩ ∈ dfa :: traversed := List.get_mem _ _ _
      have hsg : g.get? ((dfa :: traversed).get ⟨j, hj⟩)
          = some (g.get ⟨_, hlt _ hmem⟩) := List.get?_eq_get (hlt _ hmem)
      rw [hp, Option.map_some',
        assignIdsFrom_get?_of_get? _ g 0 j _ hnd hp, hsg, List.get?_range hj]
      simp
    · rw [List.get?_eq_none.mpr (Nat.le_of_not_lt hj),
        List.get?_eq_none.mpr (by rw [List.length_range]; omega)]
      rfl
  · rw [dfa2map_graph, dfa2map_writes]

/-- C2 witness: in the three-state scenario the assigned ids along the
enumeration order are exactly the list [0, 1, 2]. -/
theorem C2_witness :
    goodEnum abcGraph [0, 1, 2] ∧
    ((([0, 1, 2] : List Nat).map
        (fun p => (((dfa2map 0 abcGraph [1, 2] noFail).graph.get? p).map DFA_state.state_id).getD 0))
      = List.range ([0, 1, 2] : List Nat).length ∧
    (dfa2map 0 abcGraph [1, 2] noFail).writes
      = ([0, 1, 2] : List Nat).flatMap (stateWrites (dfa2map 0 abcGraph [1, 2] noFail).graph)) :=
  ⟨by decide, C2_ids_bijection 0 abcGraph [1, 2] noFail (by decide)⟩

/-- C5: the number of attempted store writes equals the total number of
outgoing transitions summed over the enumerated states, and the number of
failures recorded never exceeds it (so an automaton contributing zero writes
records zero failures). -/
theorem C5_write_count (dfa : Nat) (g : DFAGraph) (traversed : List Nat) (fail : Nat → Bool) :
    (dfa2map dfa g traversed fail).writes.length
        = ((dfa :: traversed).map (fun p => (transOf g p).length)).sum ∧
    (dfa2map dfa g traversed fail).warnings ≤ (dfa2map dfa g traversed fail).writes.length := by
  constructor
  · rw [dfa2map_writes, List.length_flatMap]
    congr 1
    exact List.map_congr_left (fun p _ => stateWrites_assign_length g _ 0 p)
  · rw [dfa2map_warnings]
    calc ((List.range (dfa2map dfa g traversed fail).writes.length).filter
          (fun k => fail k)).length
        ≤ (List.range (dfa2map dfa g traversed fail).writes.length).length :=
          List.length_filter_le _ _
      _ = _ := List.length_range _

/-- C6: a failed put is non-fatal: the attempted write sequence does not
depend on the pattern of store outcomes (a failure on write k never prevents
writes k+1..n), and each failure is recorded as one warning. -/
theorem C6_failure_nonfatal (dfa : Nat) (g : DFAGraph) (traversed : List Nat)
    (fail : Nat → Bool) :
    (dfa2map dfa g traversed fail).writes = (dfa2map dfa g traversed (fun _ => false)).writes ∧
    (dfa2map dfa g traversed fail).warnings
      = ((List.range (dfa2map dfa g traversed fail).writes.length).filter
          (fun k => fail k)).length := by
  refine ⟨?_, dfa2map_warnings dfa g traversed fail⟩
  rw [dfa2map_writes, dfa2map_writes]

/-- A non-deterministic automaton: state 0 has two transitions on the same
symbol 120, both to state 1. -/
def nfaA : DFA_state := ⟨0, false, [⟨120, 1⟩, ⟨120, 1⟩]⟩

/-- Second state of the non-deterministic example: accepting, no
transitions. -/
def nfaB : DFA_state := ⟨0, true, []⟩

/-- The non-deterministic example graph. -/
def nfaGraph : DFAGraph := [nfaA, nfaB]

/-- C3 counterexample: the claim predicts that for an automaton with two
transitions from the same state on the same symbol zero writes are attempted
and the run aborts; instead both conflicting transitions are written (the
same key twice) and the run completes with return value 0. -/
theorem C3_counterexample :
    (dfa2map 0 nfaGraph [1] noFail).writes =
      [(⟨0, 120, 0⟩, ⟨1, 1⟩), (⟨0, 120, 0⟩, ⟨1, 1⟩)] ∧
    (dfa2map 0 nfaGraph [1] noFail).writes.length ≠ 0 ∧
    (dfa2map 0 nfaGraph [1] noFail).ret = 0 := by decide

/-- C3 amended: dfa2map performs no determinism check: every transition of
every enumerated state produces a write attempt, duplicate (state, symbol)
keys included, and the run returns 0 rather than aborting. -/
theorem C3_no_rejection (dfa : Nat) (g : DFAGraph) (traversed : List Nat) (fail : Nat → Bool) :
    (dfa2map dfa g traversed fail).writes.length
        = ((dfa :: traversed).map (fun p => (transOf g p).length)).sum ∧
    (dfa2map dfa g traversed fail).ret = 0 := by
  refine ⟨?_, dfa2map_ret dfa g traversed fail⟩
  rw [dfa2map_writes, List.length_flatMap]
  congr 1
  exact List.map_congr_left (fun p _ => stateWrites_assign_length g _ 0 p)

/-- C7 counterexample: with three transitions and a store failing exactly the
second write, dfa2map hands its caller only the constant return value 0 — the
same value as in the failure-free run — not a summary reporting attempted=3,
failed=1. -/
theorem C7_counterexample :
    (dfa2map 0 abcGraph [1, 2] failSecond).writes.length = 3 ∧
    (dfa2map 0 abcGraph [1, 2] failSecond).warnings = 1 ∧
    (dfa2map 0 abcGraph [1, 2] failSecond).ret = 0 ∧
    (dfa2map 0 abcGraph [1, 2] failSecond).ret = (dfa2map 0 abcGraph [1, 2] noFail).ret := by
  decide

/-- C7 amended: after all transitions are processed dfa2map returns 0 to its
caller unconditionally; failures are recorded only as warning prints, one per
failed write, and no attempted/failed summary is exposed to the caller. -/
theorem C7_no_summary (dfa : Nat) (g : DFAGraph) (traversed : List Nat) (fail : Nat → Bool) :
    (dfa2map dfa g traversed fail).ret = 0 ∧
    (dfa2map dfa g traversed fail).warnings
      = ((List.range (dfa2map dfa g traversed fail).writes.length).filter
          (fun k => fail k)).length :=
  ⟨dfa2map_ret dfa g traversed fail, dfa2map_warnings dfa g traversed fail⟩

/-- A single-state graph whose state carries a nonzero initial state_id. -/
def soloState : DFA_state := ⟨7, false, []⟩

/-- The single-state example graph. -/
def soloGraph : DFAGraph := [soloState]

/-- C9 counterexample: dfa2map mutates the automaton graph: the single state
starts with state_id 7 and ends the run with state_id 0, so the graph after
the run differs from the input graph. -/
theorem C9_counterexample :
    (dfa2map 0 soloGraph [] noFail).graph ≠ soloGraph ∧
    ((dfa2map 0 soloGraph [] noFail).graph.get? 0).map DFA_state.state_id = some 0 ∧
    (soloGraph.get? 0).map DFA_state.state_id = some 7 := by decide

/-- C9 amended: the run writes canonical ids into the enumerated states'
state_id fields (mutating the graph), but every state's accepting flag and
transition list are unchanged. -/
theorem C9_frame (dfa : Nat) (g : DFAGraph) (traversed : List Nat) (fail : Nat → Bool)
    (p : Nat) :
    ((dfa2map dfa g traversed fail).graph.get? p).map (fun s => (s.is_acceptable, s.trans))
      = (g.get? p).map (fun s => (s.is_acceptable, s.trans)) := by
  rw [dfa2map_graph]
  exact assignIdsFrom_get?_shape _ g 0 p

/-- C8 counterexample: the value written for the scenario transition A-y-C
carries the bytes of final_state (the accepting flag) first and the target id
second, [0, 0, 2, 0], not the claimed order target id first, [2, 0, 0, 0]. -/
theorem C8_counterexample :
    ((dfa2map 0 abcGraph [1, 2] noFail).writes.get? 1).map (fun kv => valueBytes kv.2)
        = some [0, 0, 2, 0] ∧
    specValueLayoutBytes 2 0 = [2, 0, 0, 0] ∧
    ([0, 0, 2, 0] : List Nat) ≠ [2, 0, 0, 0] := by decide

/-- C8 amended: every value written has layout target_is_accepting (16-bit
final_state, holding 0 or 1) first, followed by target_state_id (16-bit
state). -/
theorem C8_value_layout (dfa : Nat) (g : DFAGraph) (traversed : List Nat) (fail : Nat → Bool)
    (kv : ids_inspect_map_key × ids_inspect_map_value)
    (h : kv ∈ (dfa2map dfa g traversed fail).writes) :
    valueBytes kv.2 = u16Bytes kv.2.final_state ++ u16Bytes kv.2.state ∧
    (kv.2.final_state = 0 ∨ kv.2.final_state = 1) := by
  refine ⟨rfl, ?_⟩
  rw [dfa2map_writes] at h
  obtain ⟨p, -, hkv⟩ := List.mem_flatMap.mp h
  unfold stateWrites at hkv
  obtain ⟨t, -, rfl⟩ := List.mem_map.mp hkv
  by_cases hacc :
      (((assignIdsFrom g 0 (dfa :: traversed)).get? t.«to»).getD defaultState).is_acceptable <;>
    simp [hacc]

/-- C8 witness: the amended layout holds at the first value produced in the
scenario run. -/
theorem C8_witness :
    ((⟨0, 120, 0⟩, ⟨1, 1⟩) : ids_inspect_map_key × ids_inspect_map_value)
        ∈ (dfa2map 0 abcGraph [1, 2] noFail).writes ∧
    (valueBytes (⟨1, 1⟩ : ids_inspect_map_value)
        = u16Bytes (1 : Nat) ++ u16Bytes (1 : Nat) ∧
      ((1 : Nat) = 0 ∨ (1 : Nat) = 1)) :=
  ⟨by decide,
    C8_value_layout 0 abcGraph [1, 2] noFail (⟨0, 120, 0⟩, ⟨1, 1⟩) (by decide)⟩

/-- C10: the start state is the head of the enumerated list, it receives
canonical id 0, and every written key with source id 0 belongs to the start
state's row of the table. -/
theorem C10_start_first (dfa : Nat) (g : DFAGraph) (traversed : List Nat) (fail : Nat → Bool)
    (h : goodEnum g (dfa :: traversed)) (hlen : (dfa :: traversed).length ≤ 65536) :
    (dfa :: traversed).head? = some dfa ∧
    ((dfa2map dfa g traversed fail).graph.get? dfa).map DFA_state.state_id = some 0 ∧
    ∀ kv ∈ (dfa2map dfa g traversed fail).writes,
      kv.1.state = 0 → kv ∈ rowOf g (dfa :: traversed) dfa := by
  obtain ⟨hnd, hlt, htr⟩ := h
  have hmem : dfa ∈ dfa :: traversed := by simp
  refine ⟨rfl, ?_, ?_⟩
  · rw [dfa2map_graph,
      assignIdsFrom_get?_of_get? _ g 0 0 dfa hnd rfl,
      List.get?_eq_get (hlt dfa hmem)]
    simp
  · intro kv hkv h0
    rw [dfa2map_writes_spec dfa g traversed fail ⟨hnd, hlt, htr⟩ hlen] at hkv
    obtain ⟨p, hp, hkvrow⟩ := List.mem_flatMap.mp hkv
    obtain ⟨t, ht, rfl⟩ := List.mem_map.mp hkvrow
    dsimp at h0
    have hidx : (dfa :: traversed).get? ((dfa :: traversed).indexOf p) = some p :=
      List.indexOf_get? hp
    rw [h0] at hidx
    have hpd : dfa = p := by simpa using hidx
    subst hpd
    exact List.mem_map.mpr ⟨t, ht, rfl⟩

/-- C10 witness: in the scenario, the write keyed by source id 0 on symbol
120 is a row of the start state. -/
theorem C10_witness :
    (goodEnum abcGraph [0, 1, 2] ∧ ([0, 1, 2] : List Nat).length ≤ 65536) ∧
    ((⟨0, 120, 0⟩, ⟨1, 1⟩) : ids_inspect_map_key × ids_inspect_map_value)
      ∈ rowOf abcGraph [0, 1, 2] 0 :=
  ⟨⟨by decide, by decide⟩,
    (C10_start_first 0 abcGraph [1, 2] noFail (by decide) (by decide)).2.2
      (⟨0, 120, 0⟩, ⟨1, 1⟩) (by decide) (by decide)⟩

/-- The single transition of the oversized example: symbol 120 to state
65536. -/
def bigTrans : DFA_transition := ⟨120, 65536⟩

/-- An automaton with 65537 states: state 0 has one transition to state
65536, every other state has none. -/
def bigGraph : DFAGraph :=
  (List.range 65537).map (fun i => ⟨0, false, if i = 0 then [bigTrans] else []⟩)

/-- Enumeration tail of the oversized example: states 1..65536 after the
start state. -/
def bigTraversed : List Nat := (List.range 65536).map (fun j => j + 1)

lemma bigGraph_get? (x : Nat) (hx : x < 65537) :
    bigGraph.get? x = some ⟨0, false, if x = 0 then [bigTrans] else []⟩ := by
  unfold bigGraph
  rw [List.get?_map, List.get?_range hx]
  rfl

lemma bigTraversed_nodup : (0 :: bigTraversed).Nodup := by
  rw [List.nodup_cons]
  constructor
  · intro h
    obtain ⟨j, -, hj⟩ := List.mem_map.mp h
    omega
  · exact (List.nodup_range 65536).map (fun a b h => by omega)

lemma big_sl_get65536 : (0 :: bigTraversed).get? 65536 = some 65536 := by
  have h : (65536 : Nat) = 65535 + 1 := rfl
  rw [h, List.get?_cons_succ]
  unfold bigTraversed
  rw [List.get?_map, List.get?_range (by norm_num)]
  rfl

lemma big_assign0 :
    (assignIdsFrom bigGraph 0 (0 :: bigTraversed)).get? 0 = some ⟨0, false, [bigTrans]⟩ := by
  rw [assignIdsFrom_get?_of_get? _ bigGraph 0 0 0 bigTraversed_nodup rfl,
    bigGraph_get? 0 (by norm_num)]
  rfl

lemma big_assign65536 :
    (assignIdsFrom bigGraph 0 (0 :: bigTraversed)).get? 65536
      = some ⟨65536, false, []⟩ := by
  rw [assignIdsFrom_get?_of_get? _ bigGraph 0 65536 65536 bigTraversed_nodup big_sl_get65536,
    bigGraph_get? 65536 (by norm_num)]
  simp

lemma bigRun_writes :
    (dfa2map 0 bigGraph bigTraversed noFail).writes = [(⟨0, 120, 0⟩, ⟨0, 0⟩)] := by
  rw [dfa2map_writes, List.flatMap_cons]
  have h1 : stateWrites (assignIdsFrom bigGraph 0 (0 :: bigTraversed)) 0
      = [(⟨0, 120, 0⟩, ⟨0, 0⟩)] := by
    unfold stateWrites
    rw [big_assign0]
    simp only [Option.getD_some, bigTrans, List.map_cons, List.map_nil]
    rw [big_assign65536]
    simp
  have h2 : bigTraversed.flatMap
      (stateWrites (assignIdsFrom bigGraph 0 (0 :: bigTraversed))) = [] := by
    rw [List.flatMap_eq_nil_iff]
    intro x hx
    obtain ⟨j, hj, rfl⟩ := List.mem_map.mp hx
    have hjlt : j < 65536 := List.mem_range.mp hj
    apply List.length_eq_zero.mp
    rw [stateWrites_assign_length]
    unfold transOf
    rw [bigGraph_get? (j + 1) (by omega)]
    simp
  rw [h1, h2, List.append_nil]

/-- C4 counterexample: an automaton with 65537 enumerated states (more than
the 16-bit ids_inspect_state can represent) is not rejected: a write is
attempted and it carries a truncated state id — the target state was assigned
id 65536 but appears in the written value as 0. -/
theorem C4_counterexample :
    (0 :: bigTraversed).length = 65537 ∧
    (dfa2map 0 bigGraph bigTraversed noFail).writes ≠ [] ∧
    (dfa2map 0 bigGraph bigTraversed noFail).writes.map (fun kv => kv.2.state) = [0] ∧
    ((dfa2map 0 bigGraph bigTraversed noFail).graph.get? 65536).map DFA_state.state_id
      = some 65536 := by
  refine ⟨?_, ?_, ?_, ?_⟩
  · have h : bigTraversed.length = 65536 := by
      unfold bigTraversed
      rw [List.length_map, List.length_range]
    rw [List.length_cons, h]
  · rw [bigRun_writes]
    simp
  · rw [bigRun_writes]
    rfl
  · rw [dfa2map_graph, big_assign65536]
    rfl

/-- C4 amended: with more enumerated states than the 16-bit width can
represent the run is not rejected: it returns 0 and the write proceeds with
the state id silently truncated — the value state field holds the target's
assigned id reduced modulo 2^16. -/
theorem C4_truncation :
    (dfa2map 0 bigGraph bigTraversed noFail).ret = 0 ∧
    (dfa2map 0 bigGraph bigTraversed noFail).writes.map (fun kv => kv.2.state)
      = [(((dfa2map 0 bigGraph bigTraversed noFail).graph.get? 65536).map
            DFA_state.state_id).getD 0 % 65536] := by
  refine ⟨dfa2map_ret 0 bigGraph bigTraversed noFail, ?_⟩
  rw [bigRun_writes, dfa2map_graph, big_assign65536]
  rfl
